import Mathlib

/-!
Verification development for the autocomputer-sdk streaming run-execution
protocol.  The definitions below are a shallow embedding of the Python
source:

  * `RunNamespace.astream`            (src/autocomputer_sdk/client.py)
  * `WebSocketWorkflowClient.run_workflow` and its tool relay
                                       (src/autocomputer_sdk/websocket_client.py)
  * `validate_user_inputs_for_workflow`
                                       (src/autocomputer_sdk/validate/workflow_inputs.py)

Wire frames are abstracted at the granularity the Python code observes
them: a raw line is either blank, not JSON, JSON but not an object, or a
JSON object dispatched on its `type` field.  Field access outcomes
(missing key, value failing pydantic validation, valid value) are carried
by `FieldVal`.  Transport behaviour (connection failures, stream
interruptions, message lists) is the scenario input of each run function.
-/

/-- Outcome of reading one field out of a decoded JSON object, as the
Python code observes it: the key can be missing (`dict[k]` raises
`KeyError`), present but rejected by pydantic validation
(`ValidationError`), or present with a usable value. -/
inductive FieldVal (α : Type) where
  | missing
  | invalid
  | val (a : α)
  deriving DecidableEq

/-- Assistant content blocks (types/messages/content_blocks.py).  The
`input` and `result` dictionaries are uninterpreted by the client, so they are
carried as strings. -/
inductive ACContentBlock where
  | text (s : String)
  | thinking (s : String)
  | toolUse (name : String) (input : String)
  | toolUseResult (result : String)
  deriving DecidableEq

/-- Python exceptions that can escape the per-frame handling in the two
run loops. -/
inductive PyExc where
  | keyError (k : String)
  | validationError (field : String)
  | attrError
  | jsonDecode (line : String)
  | runtimeError (msg : String)
  | httpStatus (code : Nat)
  | sendOnClosed
  deriving DecidableEq

/-- The distinct error-message templates of the `RunErrorMessage` events
the two clients yield.  `attempt` counts from zero as in the Python
`for attempt in range(max_retries + 1)` loop. -/
inductive ErrMsg where
  | serverError (s : String)
  | decodeFailure (line : String)
  | connectRetry (attempt maxRetries : Nat) (desc : String)
  | connectFailed (maxRetries : Nat) (desc : String)
  | readRetry (attempt maxRetries : Nat) (desc : String)
  | readFailed (maxRetries : Nat) (desc : String)
  | unexpected (e : PyExc)
  | wsFailed (e : PyExc)
  | wsTransportError (desc : String)
  deriving DecidableEq

/-- The typed events yielded to the caller (`RunMessage` union in
types/messages/response.py). -/
inductive RunEvent where
  | started
  | sequenceStarted (sid : String)
  | sequenceStatus (sid : String) (success : Bool) (error : Option String)
  | assistant (c : ACContentBlock)
  | error (m : ErrMsg)
  | completed
  deriving DecidableEq

/-- A tool request extracted from a `tool_request` frame content
(`tool_name` and an uninterpreted payload). -/
structure ToolReq where
  tool_name : String
  payload : String
  deriving DecidableEq

/-- One raw text frame, abstracted by parse outcome and, for JSON
objects, by the `type` discriminator together with the fields the client
reads for that discriminator.  `errorFrame` carries both the `error` key
(read by the remote client) and the `content` key (read by the local
WebSocket client). -/
inductive Frame where
  | blank
  | notJson (line : String)
  | nonObj
  | runStarted
  | sequenceStarted (sid : FieldVal String)
  | sequenceStatus (sid : FieldVal String) (success : FieldVal Bool) (error : FieldVal String)
  | assistant (content : FieldVal ACContentBlock)
  | errorFrame (error : FieldVal String) (content : FieldVal String)
  | runCompleted
  | toolRequest (content : FieldVal ToolReq)
  | workflowCompleted
  | configureAck
  | unknownTag (tag : String)
  deriving DecidableEq

/-- Outcome of the remote clients per-frame dispatch (the body of the
`async for line` loop of `RunNamespace.astream`). -/
inductive StepResult where
  | noEvent
  | event (e : RunEvent)
  | completed
  | exc (e : PyExc)
  deriving DecidableEq

/-- One iteration of the `async for line` loop of `RunNamespace.astream`
(client.py lines 439-475).  Blank lines are skipped; a JSON decode error
yields a decode-failure error event; a JSON non-object raises
`AttributeError` on `.get`; recognized types yield their event (raising
`KeyError` or `ValidationError` when a required field is missing or
invalid); `run_completed` yields the completed event and returns;
unrecognized types fall through with no event. -/
def stepFrame : Frame → StepResult
  | .blank => .noEvent
  | .notJson line => .event (.error (.decodeFailure line))
  | .nonObj => .exc .attrError
  | .runStarted => .event .started
  | .sequenceStarted sid =>
    match sid with
    | .missing => .exc (.keyError "sequence_id")
    | .invalid => .exc (.validationError "sequence_id")
    | .val s => .event (.sequenceStarted s)
  | .sequenceStatus sid success err =>
    match sid with
    | .missing => .exc (.keyError "sequence_id")
    | _ =>
      match success with
      | .missing => .exc (.keyError "success")
      | _ =>
        match sid, success, err with
        | .val s, .val b, .val e => .event (.sequenceStatus s b (some e))
        | .val s, .val b, .missing => .event (.sequenceStatus s b none)
        | _, _, _ => .exc (.validationError "sequence_status")
  | .assistant content =>
    match content with
    | .missing => .exc (.keyError "content")
    | .invalid => .exc (.validationError "content")
    | .val c => .event (.assistant c)
  | .errorFrame err _ =>
    match err with
    | .missing => .exc (.keyError "error")
    | .invalid => .exc (.validationError "error")
    | .val s => .event (.error (.serverError s))
  | .runCompleted => .completed
  | .toolRequest _ => .noEvent
  | .workflowCompleted => .noEvent
  | .configureAck => .noEvent
  | .unknownTag _ => .noEvent

/-- Result of running the remote frame loop over a list of frames:
either the list ran out (the transport will decide what happens next),
a `run_completed` frame returned from the generator, or a Python
exception escaped the per-frame handling. -/
inductive FrameLoopResult where
  | ranOut (events : List RunEvent)
  | completedRun (events : List RunEvent)
  | pyExc (events : List RunEvent) (e : PyExc)
  deriving DecidableEq

/-- Prepend one yielded event to a frame-loop result. -/
def consE (e : RunEvent) : FrameLoopResult → FrameLoopResult
  | .ranOut evs => .ranOut (e :: evs)
  | .completedRun evs => .completedRun (e :: evs)
  | .pyExc evs x => .pyExc (e :: evs) x

/-- The remote frame loop (client.py lines 439-475): frames are
dispatched in order until the list runs out, a `run_completed` frame is
hit, or an exception escapes. -/
def processFrames : List Frame → FrameLoopResult
  | [] => .ranOut []
  | f :: fs =>
    match stepFrame f with
    | .noEvent => processFrames fs
    | .event e => consE e (processFrames fs)
    | .completed => .completedRun [.completed]
    | .exc e => .pyExc [] e

/-- How one successful connection ends, seen from the client: the
response body ends cleanly, or httpx raises `ReadError` or
`RemoteProtocolError` mid-stream. -/
inductive StreamEnd where
  | closed
  | interrupted (desc : String)
  deriving DecidableEq

/-- Behaviour of one connection attempt of `astream`: the connect itself
fails (`httpx.ConnectError` / `TimeoutException` / `RequestError`),
`raise_for_status` rejects the response, or a stream of frames is
delivered ending as described by `StreamEnd`. -/
inductive Attempt where
  | connectFail (desc : String)
  | badStatus (code : Nat)
  | stream (frames : List Frame) (tail : StreamEnd)
  deriving DecidableEq

/-- Observable outcome of one `astream` call: the events yielded in
order, the `asyncio.sleep` delays performed before retries, and the
number of connection attempts made. -/
structure RunOutcome where
  events : List RunEvent
  delays : List Nat
  attemptsUsed : Nat
  deriving DecidableEq

/-- The retry loop of `RunNamespace.astream` (client.py lines 425-516),
with `attempt` the loop counter.  A connect failure with budget left
yields an informational retry error, sleeps `retry_delay * (attempt+1)`
and continues; with the budget exhausted it yields a final error and
returns.  A bad HTTP status escapes to the generic handler (terminal
unexpected error).  On a delivered stream: a completed run or an escaped
exception returns; a cleanly closed stream returns; an interruption with
budget left yields the retry error, sleeps, and then executes `break`,
which in the Python source exits the whole `for attempt` loop, so the
generator ends with no further attempt. -/
def astreamGo (maxRetries d : Nat) : Nat → List Attempt → RunOutcome
  | _, [] => ⟨[], [], 0⟩
  | attempt, .connectFail desc :: rest =>
    if attempt < maxRetries then
      let r := astreamGo maxRetries d (attempt + 1) rest
      ⟨.error (.connectRetry attempt maxRetries desc) :: r.events,
        d * (attempt + 1) :: r.delays, r.attemptsUsed + 1⟩
    else
      ⟨[.error (.connectFailed maxRetries desc)], [], 1⟩
  | _, .badStatus code :: _ => ⟨[.error (.unexpected (.httpStatus code))], [], 1⟩
  | attempt, .stream frames tail :: _ =>
    match processFrames frames with
    | .completedRun evs => ⟨evs, [], 1⟩
    | .pyExc evs e => ⟨evs ++ [.error (.unexpected e)], [], 1⟩
    | .ranOut evs =>
      match tail with
      | .closed => ⟨evs, [], 1⟩
      | .interrupted desc =>
        if attempt < maxRetries then
          ⟨evs ++ [.error (.readRetry attempt maxRetries desc)], [d * (attempt + 1)], 1⟩
        else
          ⟨evs ++ [.error (.readFailed maxRetries desc)], [], 1⟩

/-- Embedding of `RunNamespace.astream`, as a function from the transport scenario to
the observable outcome. -/
def astream (maxRetries d : Nat) (script : List Attempt) : RunOutcome :=
  astreamGo maxRetries d 0 script

/-- Events of a single clean (uninterrupted) pass over a frame list, as
`astream` would yield them on a connection that succeeds immediately. -/
def streamClosedEvents (fs : List Frame) : List RunEvent :=
  (astream 0 0 [.stream fs .closed]).events

/-- Events after which `RunNamespace.astream` returns: the completed
event, the retry-budget-exhaustion errors, and the generic
unexpected-error event.  All other events leave the generator running. -/
def remoteTerminal : RunEvent → Bool
  | .completed => true
  | .error (.connectFailed _ _) => true
  | .error (.readFailed _ _) => true
  | .error (.unexpected _) => true
  | _ => false

/-- Dispatch outcome when the tool relay forwards a request to the local
tool endpoint: an HTTP 200 with a JSON body, a non-200 status with an
error text, or an exception raised during the request. -/
inductive Dispatch where
  | ok (body : String)
  | non200 (status : Nat) (text : String)
  | raised (desc : String)
  deriving DecidableEq

/-- The JSON dictionary written back on the channel inside a
`tool_response` message: either the endpoint body, or a dictionary
carrying an `error` key. -/
inductive ToolResult where
  | body (s : String)
  | errorBody (s : String)
  deriving DecidableEq

/-- Whether the response dictionary carries an error. -/
def ToolResult.isError : ToolResult → Bool
  | .body _ => false
  | .errorBody _ => true

/-- Embedding of `LocalToolServer.execute_tool` (websocket_client.py lines 52-69):
raises `RuntimeError` if the aiohttp session was never started;
otherwise converts a non-200 status or a request exception into an
error dictionary and returns the body on success. -/
def execute_tool (sessionStarted : Bool) (dispatch : String → String → Dispatch)
    (tool_name payload : String) : Except PyExc ToolResult :=
  if sessionStarted then
    match dispatch tool_name payload with
    | .ok body => .ok (.body body)
    | .non200 status text =>
      .ok (.errorBody ("Tool server error: " ++ toString status ++ " - " ++ text))
    | .raised desc => .ok (.errorBody ("Tool execution failed: " ++ desc))
  else
    .error (.runtimeError "Tool server not started")

/-- Embedding of the `WebSocketWorkflowClient` tool-request handler (websocket_client.py
lines 188-215): extracts `tool_name` and `payload` from the frame
content, executes the tool, and writes exactly one `tool_response` back;
every exception raised along the way (missing or malformed content, a
tool-server session that was never started) is converted into an error
response. -/
def handle_tool_request (sessionStarted : Bool) (dispatch : String → String → Dispatch)
    (content : FieldVal ToolReq) : ToolResult :=
  match content with
  | .missing => .errorBody "Tool execution failed: KeyError content"
  | .invalid => .errorBody "Tool execution failed: malformed content"
  | .val req =>
    match execute_tool sessionStarted dispatch req.tool_name req.payload with
    | .ok r => r
    | .error _ => .errorBody "Tool execution failed: Tool server not started"

/-- One message received on the WebSocket, at the granularity aiohttp
reports them: a TEXT frame, a BINARY frame, an ERROR message, or a
close (which ends the `async for msg in ws` iteration). -/
inductive WSMsg where
  | text (f : Frame)
  | binary
  | wsError (desc : String)
  | closed
  deriving DecidableEq

/-- Observable outcome of a local WebSocket run: the events yielded to
the caller and the tool responses written back on the channel. -/
structure WSOutcome where
  events : List RunEvent
  sent : List ToolResult
  deriving DecidableEq

/-- Prepend one yielded event to a WebSocket-run outcome. -/
def consW (e : RunEvent) (r : WSOutcome) : WSOutcome :=
  ⟨e :: r.events, r.sent⟩

/-- The message loop of `WebSocketWorkflowClient.run_workflow`
(websocket_client.py lines 130-179).  TEXT frames are dispatched on
their decoded `type`: `tool_request` frames go to the tool relay and
yield nothing; `assistant` and `sequence_status` frames yield their
events; `workflow_completed` yields the completed event and breaks;
`error` frames yield the server error (read from the `content` key) and
break; JSON decode failures yield an error event and continue; any other
exception (JSON non-object, missing or invalid required field) escapes
the loop to the outer handler, which yields one final error event.
ERROR messages yield an error event and break; BINARY messages and TEXT
frames with unhandled types are ignored; a close ends the iteration. -/
def wsLoop (sessionStarted : Bool) (dispatch : String → String → Dispatch) :
    List WSMsg → WSOutcome
  | [] => ⟨[], []⟩
  | .closed :: _ => ⟨[], []⟩
  | .binary :: rest => wsLoop sessionStarted dispatch rest
  | .wsError desc :: _ => ⟨[.error (.wsTransportError desc)], []⟩
  | .text f :: rest =>
    match f with
    | .blank => consW (.error (.decodeFailure "")) (wsLoop sessionStarted dispatch rest)
    | .notJson line => consW (.error (.decodeFailure line)) (wsLoop sessionStarted dispatch rest)
    | .nonObj => ⟨[.error (.wsFailed .attrError)], []⟩
    | .toolRequest c =>
      let r := wsLoop sessionStarted dispatch rest
      ⟨r.events, handle_tool_request sessionStarted dispatch c :: r.sent⟩
    | .assistant content =>
      match content with
      | .missing => ⟨[.error (.wsFailed (.keyError "content"))], []⟩
      | .invalid => ⟨[.error (.wsFailed (.validationError "content"))], []⟩
      | .val c => consW (.assistant c) (wsLoop sessionStarted dispatch rest)
    | .sequenceStatus sid success err =>
      match sid with
      | .missing => ⟨[.error (.wsFailed (.keyError "sequence_id"))], []⟩
      | _ =>
        match success with
        | .missing => ⟨[.error (.wsFailed (.keyError "success"))], []⟩
        | _ =>
          match sid, success, err with
          | .val s, .val b, .val e =>
            consW (.sequenceStatus s b (some e)) (wsLoop sessionStarted dispatch rest)
          | .val s, .val b, .missing =>
            consW (.sequenceStatus s b none) (wsLoop sessionStarted dispatch rest)
          | _, _, _ => ⟨[.error (.wsFailed (.validationError "sequence_status"))], []⟩
    | .workflowCompleted => ⟨[.completed], []⟩
    | .errorFrame _ content =>
      match content with
      | .missing => ⟨[.error (.wsFailed (.keyError "content"))], []⟩
      | .invalid => ⟨[.error (.wsFailed (.validationError "content"))], []⟩
      | .val s => ⟨[.error (.serverError s)], []⟩
    | .runStarted => wsLoop sessionStarted dispatch rest
    | .sequenceStarted _ => wsLoop sessionStarted dispatch rest
    | .runCompleted => wsLoop sessionStarted dispatch rest
    | .configureAck => wsLoop sessionStarted dispatch rest
    | .unknownTag _ => wsLoop sessionStarted dispatch rest

/-- The configuration-acknowledgment check of
`WebSocketWorkflowClient.run_workflow` (websocket_client.py lines
110-115) applied to a TEXT frame: `json.loads` failures and JSON
non-objects raise, a decoded object whose `type` is not `configure_ack`
raises `RuntimeError`, and only a `configure_ack` object passes.
Returns the exception the outer handler will report, or `none` when the
acknowledgment is accepted. -/
def ackCheck : Frame → Option PyExc
  | .blank => some (.jsonDecode "")
  | .notJson line => some (.jsonDecode line)
  | .nonObj => some .attrError
  | .configureAck => none
  | .runStarted => some (.runtimeError "Expected configure_ack")
  | .sequenceStarted _ => some (.runtimeError "Expected configure_ack")
  | .sequenceStatus _ _ _ => some (.runtimeError "Expected configure_ack")
  | .assistant _ => some (.runtimeError "Expected configure_ack")
  | .errorFrame _ _ => some (.runtimeError "Expected configure_ack")
  | .runCompleted => some (.runtimeError "Expected configure_ack")
  | .toolRequest _ => some (.runtimeError "Expected configure_ack")
  | .workflowCompleted => some (.runtimeError "Expected configure_ack")
  | .unknownTag _ => some (.runtimeError "Expected configure_ack")

/-- Embedding of `WebSocketWorkflowClient.run_workflow` (websocket_client.py lines
86-186).  The first received message is the configuration
acknowledgment: only TEXT messages are checked (a TEXT frame that is
not a `configure_ack` object raises, and the outer handler yields one
error event and ends the run); a BINARY or ERROR message at this point
skips the check entirely and the run proceeds; a close (and likewise an
empty message list, which models a dead connection) makes the following
`send_str` of the start message raise, which the outer handler reports
as one error event.  After a successful start the client yields the
started event and enters the message loop.  The configuration dictionary
itself is assumed valid and is not modelled. -/
def run_workflow (sessionStarted : Bool) (dispatch : String → String → Dispatch)
    (msgs : List WSMsg) : WSOutcome :=
  match msgs with
  | [] => ⟨[.error (.wsFailed .sendOnClosed)], []⟩
  | .closed :: _ => ⟨[.error (.wsFailed .sendOnClosed)], []⟩
  | .binary :: rest => consW .started (wsLoop sessionStarted dispatch rest)
  | .wsError _ :: rest => consW .started (wsLoop sessionStarted dispatch rest)
  | .text f :: rest =>
    match ackCheck f with
    | some e => ⟨[.error (.wsFailed e)], []⟩
    | none => consW .started (wsLoop sessionStarted dispatch rest)

/-- Events after which the local WebSocket run ends: the completed
event, a server-reported error, the outer-handler failure event, and a
transport ERROR event.  Decode-failure events leave the loop running. -/
def wsTerminal : RunEvent → Bool
  | .completed => true
  | .error (.serverError _) => true
  | .error (.wsFailed _) => true
  | .error (.wsTransportError _) => true
  | _ => false

/-- Workflow input types (types/workflow.py `InputType`). -/
inductive InputType where
  | string
  | number
  | boolean
  | date
  | list
  | file
  | directory
  deriving DecidableEq

/-- An element of a provided Python list.  The validator only ever asks
whether such an element is a `str`, so elements are abstracted to a
string or a non-string token. -/
inductive PyItem where
  | str (s : String)
  | nonStr
  deriving DecidableEq

/-- Python values at the granularity the isinstance checks of
`validate_user_inputs_for_workflow` observe them.  A Python `bool` is a
subclass of `int`, so the instance checks below treat `boolean` values
as instances of `int`. -/
inductive PyVal where
  | str (s : String)
  | int (n : Int)
  | float
  | boolean (b : Bool)
  | pylist (xs : List PyItem)
  | other
  deriving DecidableEq

/-- Check `isinstance(item, str)` for a list element. -/
def item_is_str : PyItem → Bool
  | .str _ => true
  | .nonStr => false

/-- Check `isinstance(value, str)`. -/
def isinstance_str : PyVal → Bool
  | .str _ => true
  | _ => false

/-- Check `isinstance(value, (int, float))`; Python booleans are ints. -/
def isinstance_num : PyVal → Bool
  | .int _ => true
  | .float => true
  | .boolean _ => true
  | _ => false

/-- Check `isinstance(value, bool)`. -/
def isinstance_bool : PyVal → Bool
  | .boolean _ => true
  | _ => false

/-- Check `isinstance(value, list) and all(isinstance(item, str) for item in value)`. -/
def is_str_list : PyVal → Bool
  | .pylist xs => xs.all item_is_str
  | _ => false

/-- The type check of workflow_inputs.py lines 36-61 for one expected
input type and one provided value. -/
def valid_type (expected : InputType) (v : PyVal) : Bool :=
  match expected with
  | .string => isinstance_str v
  | .number => isinstance_num v
  | .boolean => isinstance_bool v
  | .list => is_str_list v
  | .date => isinstance_str v
  | .file => isinstance_str v
  | .directory => isinstance_str v

/-- One workflow input definition (types/workflow.py `WorkflowInput`).
The title, description and file-filter fields are not consulted by the
validator and are elided.  A Python default of `None` is `none`. -/
structure WorkflowInput where
  input_name : String
  input_type : InputType
  default_value : Option PyVal
  deriving DecidableEq

/-- The workflow fields consulted by the validator (types/workflow.py
`Workflow`); all other fields are elided. -/
structure Workflow where
  workflow_inputs : List WorkflowInput
  deriving DecidableEq

/-- A Python dictionary with string keys, as an insertion-ordered
association list with unique keys maintained by `dictInsert`. -/
abbrev Dict := List (String × PyVal)

/-- Dictionary lookup (first matching key). -/
def dictLookup (d : Dict) (k : String) : Option PyVal :=
  (d.find? (fun p => p.1 = k)).map (fun p => p.2)

/-- Python dictionary assignment `d[k] = v`: replaces the value of an
existing key in place, otherwise appends the new pair. -/
def dictInsert (d : Dict) (k : String) (v : PyVal) : Dict :=
  if d.any (fun p => p.1 = k) then
    d.map (fun p => if p.1 = k then (k, v) else p)
  else
    d ++ [(k, v)]

/-- The exceptions `validate_user_inputs_for_workflow` can raise, one
constructor per raise site. -/
inductive ValidateError where
  | multipleInputsNoneProvided (numDefined : Nat)
  | noInputsButProvided (numProvided : Nat)
  | unexpectedInput (name : String)
  | typeMismatch (name : String) (t : InputType)
  | missingRequired (name : String) (t : InputType)
  deriving DecidableEq

/-- Which Python exception class each raise site uses: only the
type-check failure raises `TypeError`; every other site raises
`ValueError`. -/
def ValidateError.isTypeError : ValidateError → Bool
  | .typeMismatch _ _ => true
  | _ => false

/-- The main loop of workflow_inputs.py lines 29-74: for each defined
input in order, take the provided value when present (after the type
check), else the declared default, else raise. -/
def buildInputs (provided : Dict) : List WorkflowInput → Dict → Except ValidateError Dict
  | [], acc => .ok acc
  | wi :: rest, acc =>
    match dictLookup provided wi.input_name with
    | some v =>
      if valid_type wi.input_type v then
        buildInputs provided rest (dictInsert acc wi.input_name v)
      else
        .error (.typeMismatch wi.input_name wi.input_type)
    | none =>
      match wi.default_value with
      | some dv => buildInputs provided rest (dictInsert acc wi.input_name dv)
      | none => .error (.missingRequired wi.input_name wi.input_type)

/-- Embedding of `validate_user_inputs_for_workflow` (workflow_inputs.py lines 5-76):
reject an empty provided mapping when more than one input is defined,
reject any provided mapping when no inputs are defined, reject the first
provided name that is not a defined input name, then build the final
mapping definition by definition. -/
def validate_user_inputs_for_workflow (workflow : Workflow) (provided_inputs : Dict) :
    Except ValidateError Dict :=
  let defs := workflow.workflow_inputs
  let definedNames := defs.map (fun wi => wi.input_name)
  if defs.length > 1 ∧ provided_inputs.length = 0 then
    .error (.multipleInputsNoneProvided defs.length)
  else if defs.length = 0 ∧ 0 < provided_inputs.length then
    .error (.noInputsButProvided provided_inputs.length)
  else
    match provided_inputs.find? (fun p => ¬ definedNames.contains p.1) with
    | some p => .error (.unexpectedInput p.1)
    | none => buildInputs provided_inputs defs []

/-- The value the claim expects the final mapping to hold for one
defined input: the provided value when present, the declared default
otherwise. -/
def providedOrDefault (provided : Dict) (wi : WorkflowInput) : Option PyVal :=
  match dictLookup provided wi.input_name with
  | some v => some v
  | none => wi.default_value

/-- Specification of a single frame step: an event yielded from inside
the loop is never one of the session-ending events and never the
completed event. -/
def stepOk : StepResult → Prop
  | .event e => remoteTerminal e = false ∧ e ≠ .completed
  | _ => True

lemma stepFrame_ok : ∀ f, stepOk (stepFrame f) := by
  intro f
  cases f with
  | blank => trivial
  | notJson line => exact ⟨rfl, by simp⟩
  | nonObj => trivial
  | runStarted => exact ⟨rfl, by simp⟩
  | sequenceStarted sid => cases sid <;> first | trivial | exact ⟨rfl, by simp⟩
  | sequenceStatus sid success err =>
    cases sid <;> cases success <;> cases err <;> first | trivial | exact ⟨rfl, by simp⟩
  | assistant c => cases c <;> first | trivial | exact ⟨rfl, by simp⟩
  | errorFrame e c => cases e <;> first | trivial | exact ⟨rfl, by simp⟩
  | runCompleted => trivial
  | toolRequest c => trivial
  | workflowCompleted => trivial
  | configureAck => trivial
  | unknownTag t => trivial

/-- Shape of a frame-loop result: every event yielded before the loop
ends is non-terminal, and a completed run ends in exactly the completed
event. -/
def loopShape : FrameLoopResult → Prop
  | .ranOut evs => evs.all (fun e => !remoteTerminal e) = true
  | .completedRun evs => ∃ pre, evs = pre ++ [RunEvent.completed]
      ∧ pre.all (fun e => !remoteTerminal e) = true
  | .pyExc evs _ => evs.all (fun e => !remoteTerminal e) = true

lemma processFrames_shape : ∀ fs, loopShape (processFrames fs) := by
  intro fs
  induction fs with
  | nil => simp [processFrames, loopShape]
  | cons f fs ih =>
    have hf := stepFrame_ok f
    cases h : stepFrame f with
    | noEvent => simpa only [processFrames, h] using ih
    | completed =>
      simp only [processFrames, h]
      exact ⟨[], rfl, rfl⟩
    | exc e => simp [processFrames, h, loopShape]
    | event e =>
      rw [h] at hf
      simp only [processFrames, h]
      cases hpf : processFrames fs with
      | ranOut evs =>
        rw [hpf] at ih
        simp only [loopShape] at ih
        simp [consE, loopShape, List.all_cons, ih, hf.1]
      | pyExc evs x =>
        rw [hpf] at ih
        simp only [loopShape] at ih
        simp [consE, loopShape, List.all_cons, ih, hf.1]
      | completedRun evs =>
        rw [hpf] at ih
        simp only [loopShape] at ih
        obtain ⟨pre, hevs, hall⟩ := ih
        refine ⟨e :: pre, ?_, ?_⟩
        · simp [consE, hevs]
        · simp [List.all_cons, hall, hf.1]

lemma all_dropLast_cons {α : Type} (p : α → Bool) (x : α) (l : List α)
    (hx : p x = true) (h : l.dropLast.all p = true) :
    (x :: l).dropLast.all p = true := by
  cases l with
  | nil => rfl
  | cons y t =>
    have he : (x :: y :: t).dropLast = x :: (y :: t).dropLast := rfl
    rw [he, List.all_cons, hx, h]
    rfl

lemma all_dropLast {α : Type} (p : α → Bool) :
    ∀ l : List α, l.all p = true → l.dropLast.all p = true := by
  intro l
  induction l with
  | nil => intro h; exact h
  | cons x t ih =>
    intro h
    rw [List.all_cons, Bool.and_eq_true] at h
    exact all_dropLast_cons p x t h.1 (ih h.2)

/-- In any `astream` outcome, every event except possibly the last one
is non-terminal; equivalently at most one session-ending event is
yielded and only in final position. -/
lemma astreamGo_dropLast (maxRetries d : Nat) :
    ∀ script attempt,
      ((astreamGo maxRetries d attempt script).events.dropLast.all
        (fun e => !remoteTerminal e)) = true := by
  intro script
  induction script with
  | nil => intro attempt; rfl
  | cons a rest ih =>
    intro attempt
    cases a with
    | connectFail desc =>
      by_cases hlt : attempt < maxRetries
      · simp only [astreamGo, if_pos hlt]
        exact all_dropLast_cons _ _ _ rfl (ih (attempt + 1))
      · simp only [astreamGo, if_neg hlt]
        rfl
    | badStatus code => rfl
    | stream frames tail =>
      have hs := processFrames_shape frames
      simp only [astreamGo]
      cases hpf : processFrames frames with
      | completedRun evs =>
        rw [hpf] at hs
        simp only [loopShape] at hs
        obtain ⟨pre, hevs, hall⟩ := hs
        simpa [hevs, List.dropLast_concat] using hall
      | pyExc evs e =>
        rw [hpf] at hs
        simp only [loopShape] at hs
        simpa [List.dropLast_concat] using hs
      | ranOut evs =>
        rw [hpf] at hs
        simp only [loopShape] at hs
        cases tail with
        | closed => exact all_dropLast _ evs hs
        | interrupted desc =>
          by_cases hlt : attempt < maxRetries
          · simp only [if_pos hlt]
            simpa [List.dropLast_concat] using hs
          · simp only [if_neg hlt]
            simpa [List.dropLast_concat] using hs

/-- In any local WebSocket run outcome, every event except possibly the
last one is non-terminal. -/
lemma wsLoop_dropLast (sessionStarted : Bool) (dispatch : String → String → Dispatch) :
    ∀ msgs,
      ((wsLoop sessionStarted dispatch msgs).events.dropLast.all
        (fun e => !wsTerminal e)) = true := by
  intro msgs
  induction msgs with
  | nil => rfl
  | cons m rest ih =>
    cases m with
    | closed => rfl
    | binary => exact ih
    | wsError desc => rfl
    | text f =>
      cases f with
      | blank => exact all_dropLast_cons _ _ _ rfl ih
      | notJson line => exact all_dropLast_cons _ _ _ rfl ih
      | nonObj => rfl
      | runStarted => exact ih
      | sequenceStarted sid => exact ih
      | sequenceStatus sid success err =>
        cases sid with
        | missing => rfl
        | invalid => cases success <;> rfl
        | val s =>
          cases success with
          | missing => rfl
          | invalid => rfl
          | val b =>
            cases err with
            | missing => exact all_dropLast_cons _ _ _ rfl ih
            | invalid => rfl
            | val e => exact all_dropLast_cons _ _ _ rfl ih
      | assistant c =>
        cases c with
        | missing => rfl
        | invalid => rfl
        | val b => exact all_dropLast_cons _ _ _ rfl ih
      | errorFrame e c => cases c <;> rfl
      | runCompleted => exact ih
      | toolRequest c =>
        simpa only [wsLoop] using ih
      | workflowCompleted => rfl
      | configureAck => exact ih
      | unknownTag t => exact ih

/-- Claim C1, counterexample.  In the remote `astream`, a server `error`
frame does not end the session: on the frame sequence
`[error "boom", run_started]` the client yields the `Error` event and
then keeps reading, yielding the `Started` event afterwards — so a
further frame is read and a further event is yielded after an explicit
server `Error` frame, which the spec classifies as fatal. -/
theorem c1_counterexample :
    (astream 3 1 [.stream [.errorFrame (.val "boom") .missing, .runStarted] .closed]).events
      = [.error (.serverError "boom"), .started] := rfl

/-- Claim C1, amended: in both run loops, every yielded event except
possibly the last one is non-session-ending, hence at most one
session-ending event (`Completed`, or an `Error` after which the
generator returns) is ever emitted, and nothing is emitted after it.
In the remote `astream` a server `error` frame is *not* session-ending
(the stream keeps being read); in the local WebSocket run both
`workflow_completed` and `error` frames end the session. -/
theorem c1_amended :
    (∀ maxRetries d script,
      ((astream maxRetries d script).events.dropLast.all
        (fun e => !remoteTerminal e)) = true)
    ∧ (∀ sessionStarted dispatch msgs,
      ((run_workflow sessionStarted dispatch msgs).events.dropLast.all
        (fun e => !wsTerminal e)) = true) := by
  constructor
  · intro maxRetries d script
    exact astreamGo_dropLast maxRetries d script 0
  · intro sessionStarted dispatch msgs
    cases msgs with
    | nil => rfl
    | cons m rest =>
      cases m with
      | closed => rfl
      | binary =>
        exact all_dropLast_cons _ _ _ rfl (wsLoop_dropLast sessionStarted dispatch rest)
      | wsError desc =>
        exact all_dropLast_cons _ _ _ rfl (wsLoop_dropLast sessionStarted dispatch rest)
      | text f =>
        cases hak : ackCheck f with
        | some e => simp [run_workflow, hak]
        | none =>
          simp only [run_workflow, hak]
          exact all_dropLast_cons _ _ _ rfl (wsLoop_dropLast sessionStarted dispatch rest)

/-- A frame whose per-frame handling in the remote loop does not raise a
Python exception. -/
def frameOk (f : Frame) : Bool :=
  match stepFrame f with
  | .exc _ => false
  | _ => true

lemma processFrames_append_runCompleted :
    ∀ fs : List Frame, fs.all frameOk = true →
      ∃ pre, processFrames (fs ++ [Frame.runCompleted])
          = .completedRun (pre ++ [RunEvent.completed])
        ∧ pre.all (fun e => !remoteTerminal e) = true := by
  intro fs
  induction fs with
  | nil => exact fun _ => ⟨[], rfl, rfl⟩
  | cons f fs ih =>
    intro h
    rw [List.all_cons, Bool.and_eq_true] at h
    have hok := h.1
    have hf := stepFrame_ok f
    cases hs : stepFrame f with
    | exc e => simp [frameOk, hs] at hok
    | noEvent =>
      simp only [List.cons_append, processFrames, hs]
      exact ih h.2
    | completed => exact ⟨[], by simp [processFrames, hs], rfl⟩
    | event e =>
      obtain ⟨pre, hpf, hall⟩ := ih h.2
      rw [hs] at hf
      refine ⟨e :: pre, ?_, ?_⟩
      · simp only [List.cons_append, processFrames, hs, List.append_eq, hpf, consE]
      · simp [List.all_cons, hall, hf.1]

/-- Claim C2: for every wire frame sequence that ends in a
`run_completed` frame and whose frames do not raise past the per-frame
handler, the yielded event sequence contains exactly one `Completed`
event, and it is the last element. -/
theorem c2 (fs : List Frame) (tail : StreamEnd) (maxRetries d : Nat)
    (h : fs.all frameOk = true) :
    ((astream maxRetries d [.stream (fs ++ [.runCompleted]) tail]).events.countP
        (fun e => decide (e = RunEvent.completed))) = 1
    ∧ (astream maxRetries d [.stream (fs ++ [.runCompleted]) tail]).events.getLast?
        = some RunEvent.completed := by
  obtain ⟨pre, hpf, hall⟩ := processFrames_append_runCompleted fs h
  have hev : (astream maxRetries d [.stream (fs ++ [.runCompleted]) tail]).events
      = pre ++ [RunEvent.completed] := by
    simp [astream, astreamGo, hpf]
  rw [hev]
  constructor
  · rw [List.countP_append]
    have h0 : pre.countP (fun e => decide (e = RunEvent.completed)) = 0 := by
      rw [List.countP_eq_zero]
      intro a ha
      have hna := (List.all_eq_true.mp hall) a ha
      simp only [Bool.not_eq_true'] at hna
      simp only [decide_eq_true_eq]
      intro hc
      rw [hc] at hna
      simp [remoteTerminal] at hna
    rw [h0]
    rfl
  · exact List.getLast?_concat _

/-- Claim C2, witness at a concrete input. -/
theorem c2_witness :
    ([Frame.runStarted].all frameOk = true)
    ∧ (((astream 3 1 [.stream ([Frame.runStarted] ++ [.runCompleted]) .closed]).events.countP
          (fun e => decide (e = RunEvent.completed))) = 1
      ∧ (astream 3 1 [.stream ([Frame.runStarted] ++ [.runCompleted]) .closed]).events.getLast?
          = some RunEvent.completed) :=
  ⟨rfl, c2 [Frame.runStarted] .closed 3 1 rfl⟩

/-- Claim C3, counterexample.  A run whose HTTP stream ends gracefully
without a terminal frame is not cancelled by the caller, yet the last
event the caller receives is the non-terminal `Started` event — the
stream ends without any `Completed` or terminal `Error` event.  (With no
frames at all, the caller receives no event whatsoever.) -/
theorem c3_counterexample :
    ((astream 3 1 [.stream [.runStarted] .closed]).events.getLast?.map remoteTerminal)
        = some false
    ∧ (astream 3 1 [.stream [] .closed]).events = [] :=
  ⟨rfl, rfl⟩

/-- Whether a frame list by itself ends the session (a `run_completed`
frame is reached or an exception escapes), as opposed to running out
with the transport still deciding what happens next. -/
def framesTerminate (fs : List Frame) : Bool :=
  match processFrames fs with
  | .ranOut _ => false
  | _ => true

lemma getLast?_cons_of_ne_nil {α : Type} (x : α) (l : List α) (h : l ≠ []) :
    (x :: l).getLast? = l.getLast? := by
  cases l with
  | nil => exact absurd rfl h
  | cons y t => rfl

lemma astreamGo_terminal_last (maxRetries d : Nat) (desc : String) (fs : List Frame)
    (tail : StreamEnd) (rest : List Attempt) (h : framesTerminate fs = true) :
    ∀ k attempt,
      ((astreamGo maxRetries d attempt
          (List.replicate k (.connectFail desc) ++ .stream fs tail :: rest)).events.getLast?.map
        remoteTerminal) = some true := by
  intro k
  induction k with
  | zero =>
    intro attempt
    simp only [List.replicate, List.nil_append]
    cases hpf : processFrames fs with
    | ranOut evs =>
      rw [framesTerminate, hpf] at h
      simp at h
    | completedRun evs =>
      have hs := processFrames_shape fs
      rw [hpf] at hs
      simp only [loopShape] at hs
      obtain ⟨pre, hevs, hall⟩ := hs
      simp [astreamGo, hpf, hevs, List.getLast?_concat, remoteTerminal]
    | pyExc evs e =>
      simp [astreamGo, hpf, List.getLast?_concat, remoteTerminal]
  | succ k ih =>
    intro attempt
    simp only [List.replicate, List.cons_append]
    by_cases hlt : attempt < maxRetries
    · simp only [astreamGo, if_pos hlt]
      have hk := ih (attempt + 1)
      cases hre : (astreamGo maxRetries d (attempt + 1)
          (List.replicate k (.connectFail desc) ++ .stream fs tail :: rest)).events with
      | nil =>
        rw [hre] at hk
        simp at hk
      | cons y t =>
        rw [hre] at hk
        rw [getLast?_cons_of_ne_nil _ _ (by simp)]
        exact hk
    · simp only [astreamGo, if_neg hlt]
      rfl

/-- Claim C3, amended: when the run ends because the frame stream
itself ends the session (a `run_completed` frame, a server `error`
frame read to completion raising past the decoder, or any escaping
exception), or because the connect-retry budget is exhausted, the last
event the caller receives is a terminal one.  The original claim fails
because a gracefully closed stream without such a frame ends the run
with no terminal event, and a mid-stream interruption with retry budget
remaining ends the generator right after the informational retry error
(the `break` in the source exits the whole retry loop). -/
theorem c3_amended (maxRetries d k : Nat) (desc : String) (fs : List Frame)
    (tail : StreamEnd) (rest : List Attempt) (h : framesTerminate fs = true) :
    ((astream maxRetries d
        (List.replicate k (.connectFail desc) ++ .stream fs tail :: rest)).events.getLast?.map
      remoteTerminal) = some true :=
  astreamGo_terminal_last maxRetries d desc fs tail rest h k 0

/-- Claim C3, witness for the amended theorem at a concrete input. -/
theorem c3_amended_witness :
    (framesTerminate [Frame.runCompleted] = true)
    ∧ ((astream 3 1
          (List.replicate 1 (.connectFail "refused")
            ++ .stream [Frame.runCompleted] .closed :: [])).events.getLast?.map
        remoteTerminal) = some true :=
  ⟨rfl, c3_amended 3 1 1 "refused" [Frame.runCompleted] .closed [] rfl⟩

/-- Frames the remote decode loop silently skips: blank or
whitespace-only lines, and JSON objects whose `type` discriminator is
not one of the six recognized strings (including the local-only
`tool_request`, `workflow_completed` and `configure_ack` tags, which are
unknown to the remote client). -/
def ignoredByDecoder : Frame → Bool
  | .blank => true
  | .unknownTag _ => true
  | .toolRequest _ => true
  | .workflowCompleted => true
  | .configureAck => true
  | _ => false

lemma stepFrame_ignored (f : Frame) (h : ignoredByDecoder f = true) :
    stepFrame f = .noEvent := by
  cases f <;> simp [ignoredByDecoder] at h <;> rfl

/-- Claim C4: a frame with an unknown `type` discriminator, or an empty
or whitespace-only frame, produces no event — the decoded event
sequence (and the whole run outcome) is unchanged by deleting such a
frame anywhere in the stream. -/
theorem c4 (f : Frame) (h : ignoredByDecoder f = true) (fs1 fs2 : List Frame) :
    processFrames (fs1 ++ f :: fs2) = processFrames (fs1 ++ fs2)
    ∧ ∀ maxRetries d tail,
        astream maxRetries d [.stream (fs1 ++ f :: fs2) tail]
          = astream maxRetries d [.stream (fs1 ++ fs2) tail] := by
  have key : processFrames (fs1 ++ f :: fs2) = processFrames (fs1 ++ fs2) := by
    induction fs1 with
    | nil =>
      simp only [List.nil_append, processFrames, stepFrame_ignored f h]
    | cons g gs ih =>
      simp only [List.cons_append, processFrames, List.append_eq]
      cases stepFrame g with
      | noEvent => exact ih
      | event e => rw [ih]
      | completed => rfl
      | exc e => rfl
  refine ⟨key, ?_⟩
  intro maxRetries d tail
  simp [astream, astreamGo, key]

/-- Claim C4, witness at a concrete input. -/
theorem c4_witness :
    (ignoredByDecoder (.unknownTag "reconnected") = true)
    ∧ (processFrames ([Frame.runStarted] ++ .unknownTag "reconnected" :: [.runCompleted])
        = processFrames ([Frame.runStarted] ++ [Frame.runCompleted])
      ∧ ∀ maxRetries d tail,
          astream maxRetries d
              [.stream ([Frame.runStarted] ++ .unknownTag "reconnected" :: [.runCompleted]) tail]
            = astream maxRetries d [.stream ([Frame.runStarted] ++ [Frame.runCompleted]) tail]) :=
  ⟨rfl, c4 (.unknownTag "reconnected") rfl [Frame.runStarted] [Frame.runCompleted]⟩

/-- Claim C5, counterexample.  A frame that is valid JSON with a
recognized `type` but a missing required field (here `sequence_started`
without `sequence_id`) raises `KeyError` past the per-frame handler:
the caller receives a single terminal unexpected-error event and the
stream does NOT continue — the following well-formed `run_started`
frame is never read, contradicting both "exactly one typed event or one
synthetic non-terminal Error" and "after a decode failure the stream
continues". -/
theorem c5_counterexample :
    (astream 3 1 [.stream [.sequenceStarted .missing, .runStarted] .closed]).events
      = [.error (.unexpected (.keyError "sequence_id"))] := rfl

/-- Claim C5, amended: only `json.loads` failures are handled at the
per-frame boundary — a non-JSON frame yields exactly one synthetic
non-terminal decode-failure `Error` event and the stream continues with
the remaining frames.  A frame that parses as JSON but fails structural
validation (a JSON non-object, or a recognized `type` with a missing or
invalid required field) raises past this boundary: the outer handler
yields a single terminal unexpected-error event and the session ends. -/
theorem c5_amended (line : String) (fs : List Frame) :
    processFrames (.notJson line :: fs)
        = consE (.error (.decodeFailure line)) (processFrames fs)
    ∧ processFrames (.nonObj :: fs) = .pyExc [] .attrError
    ∧ processFrames (.sequenceStarted .missing :: fs) = .pyExc [] (.keyError "sequence_id")
    ∧ processFrames (.assistant .invalid :: fs) = .pyExc [] (.validationError "content")
    ∧ ∀ maxRetries d tail,
        astream maxRetries d [.stream (.nonObj :: fs) tail]
          = ⟨[.error (.unexpected .attrError)], [], 1⟩ :=
  ⟨rfl, rfl, rfl, rfl, fun _ _ _ => rfl⟩

/-- Claim C6: with retry budget 3 and base delay `d`, a transport that
fails to connect exactly twice and then delivers a stream yields exactly
two informational retry `Error` events, then exactly the events of a
single clean pass over the delivered frames (each wire message
contributing its events exactly once, so nothing is duplicated), with
the delay before retry attempt `n` equal to `d * n` (linear backoff),
and all three connection attempts accounted for. -/
theorem c6 (d : Nat) (e1 e2 : String) (fs : List Frame) :
    astream 3 d [.connectFail e1, .connectFail e2, .stream fs .closed]
      = ⟨.error (.connectRetry 0 3 e1) :: .error (.connectRetry 1 3 e2)
            :: streamClosedEvents fs,
          [d * 1, d * 2], 3⟩ := by
  cases hpf : processFrames fs <;>
    simp [astream, streamClosedEvents, astreamGo, hpf]

/-- Claim C7: with retry budget 3, a transport that fails to connect on
every attempt makes exactly 4 connection attempts (none afterwards, no
matter what the transport would do next), yields three informational
retry errors with linear-backoff delays, and ends with a final terminal
connect-failure `Error` event as the last event. -/
theorem c7 (d : Nat) (e1 e2 e3 e4 : String) (rest : List Attempt) :
    astream 3 d (.connectFail e1 :: .connectFail e2 :: .connectFail e3
        :: .connectFail e4 :: rest)
      = ⟨[.error (.connectRetry 0 3 e1), .error (.connectRetry 1 3 e2),
          .error (.connectRetry 2 3 e3), .error (.connectFailed 3 e4)],
          [d * 1, d * 2, d * 3], 4⟩ := rfl

/-- Claim C8, counterexample.  A BINARY message received at the
configuration-acknowledgment step is not a `configure_ack`, yet the
client does not treat it as a fatal protocol error: the type check is
only applied to TEXT messages, so the run proceeds as if acknowledged
and yields the `Started` event with no error at all. -/
theorem c8_counterexample :
    run_workflow true (fun _ _ => .raised "unused") [.binary] = ⟨[.started], []⟩ := rfl

/-- Claim C8, amended: at the acknowledgment step, only a TEXT message
is checked — a TEXT frame that is anything other than a `configure_ack`
object (a different `type`, invalid JSON, a JSON non-object, a blank
line) is a fatal error: the run ends at once with that single error
event, no `Started` event, no retry and no further message processed.
A channel closure before acknowledgment also ends the run with a single
error event, but only because the subsequent start-message send fails.
A non-TEXT frame (e.g. BINARY) bypasses the check entirely and the run
proceeds. -/
theorem c8_amended (sessionStarted : Bool) (dispatch : String → String → Dispatch)
    (f : Frame) (e : PyExc) (rest : List WSMsg) (h : ackCheck f = some e) :
    run_workflow sessionStarted dispatch (.text f :: rest) = ⟨[.error (.wsFailed e)], []⟩
    ∧ run_workflow sessionStarted dispatch (.closed :: rest)
        = ⟨[.error (.wsFailed .sendOnClosed)], []⟩
    ∧ run_workflow sessionStarted dispatch (.binary :: rest)
        = ⟨.started :: (wsLoop sessionStarted dispatch rest).events,
            (wsLoop sessionStarted dispatch rest).sent⟩ := by
  refine ⟨?_, rfl, rfl⟩
  simp [run_workflow, h]

/-- Claim C8, witness for the amended theorem at a concrete input. -/
theorem c8_amended_witness :
    (ackCheck .runStarted = some (.runtimeError "Expected configure_ack"))
    ∧ (run_workflow true (fun _ _ => .raised "d") [.text .runStarted, .text .workflowCompleted]
          = ⟨[.error (.wsFailed (.runtimeError "Expected configure_ack"))], []⟩
      ∧ run_workflow true (fun _ _ => .raised "d") (.closed :: [.text .workflowCompleted])
          = ⟨[.error (.wsFailed .sendOnClosed)], []⟩
      ∧ run_workflow true (fun _ _ => .raised "d") (.binary :: [.text .workflowCompleted])
          = ⟨.started :: (wsLoop true (fun _ _ => .raised "d") [.text .workflowCompleted]).events,
              (wsLoop true (fun _ _ => .raised "d") [.text .workflowCompleted]).sent⟩) :=
  ⟨rfl, c8_amended true (fun _ _ => .raised "d") .runStarted
    (.runtimeError "Expected configure_ack") [.text .workflowCompleted] rfl⟩

/-- Whether the dispatch of one tool request fails: the frame content is
missing or malformed, the tool-server session was never started, or the
local endpoint answers with a non-200 status or raises. -/
def dispatchFails (sessionStarted : Bool) (dispatch : String → String → Dispatch) :
    FieldVal ToolReq → Bool
  | .missing => true
  | .invalid => true
  | .val req =>
    if sessionStarted then
      match dispatch req.tool_name req.payload with
      | .ok _ => false
      | _ => true
    else true

/-- Claim C9: a `tool_request` frame contributes no `RunEvent` to the
caller (the event sequence equals that of the remaining messages) and
always contributes exactly one `tool_response` written back on the
channel; that response carries an error exactly when the dispatch to the
local tool endpoint failed — so a dispatch failure never terminates the
run stream. -/
theorem c9 (sessionStarted : Bool) (dispatch : String → String → Dispatch)
    (c : FieldVal ToolReq) (rest : List WSMsg) :
    (wsLoop sessionStarted dispatch (.text (.toolRequest c) :: rest)).events
        = (wsLoop sessionStarted dispatch rest).events
    ∧ (wsLoop sessionStarted dispatch (.text (.toolRequest c) :: rest)).sent
        = handle_tool_request sessionStarted dispatch c
            :: (wsLoop sessionStarted dispatch rest).sent
    ∧ (handle_tool_request sessionStarted dispatch c).isError
        = dispatchFails sessionStarted dispatch c := by
  refine ⟨rfl, rfl, ?_⟩
  cases c with
  | missing => rfl
  | invalid => rfl
  | val req =>
    cases sessionStarted with
    | false => rfl
    | true =>
      cases hd : dispatch req.tool_name req.payload <;>
        simp [handle_tool_request, execute_tool, dispatchFails, hd, ToolResult.isError]

lemma dictLookup_nil (k : String) : dictLookup [] k = none := rfl

lemma dictLookup_cons (x : String × PyVal) (d : Dict) (k : String) :
    dictLookup (x :: d) k = if x.1 = k then some x.2 else dictLookup d k := by
  by_cases h : x.1 = k <;> simp [dictLookup, List.find?_cons, h]

lemma dictLookup_append (d1 d2 : Dict) (k : String) :
    dictLookup (d1 ++ d2) k
      = match dictLookup d1 k with
        | some v => some v
        | none => dictLookup d2 k := by
  induction d1 with
  | nil => simp [dictLookup_nil]
  | cons x t ih =>
    by_cases h : x.1 = k
    · simp [List.cons_append, dictLookup_cons, h]
    · simp [List.cons_append, dictLookup_cons, h, ih]

lemma dictLookup_singleton (k k2 : String) (v : PyVal) :
    dictLookup [(k, v)] k2 = if k = k2 then some v else none := by
  by_cases h : k = k2 <;> simp [dictLookup_cons, dictLookup_nil, h]

lemma dictInsert_fresh (d : Dict) (k : String) (v : PyVal) (h : dictLookup d k = none) :
    dictInsert d k v = d ++ [(k, v)] := by
  have hf : d.find? (fun p => decide (p.1 = k)) = none := by
    cases hff : d.find? (fun p => decide (p.1 = k)) with
    | none => rfl
    | some p =>
      rw [dictLookup, hff] at h
      simp at h
  have hany : (d.any fun p => decide (p.1 = k)) = false := by
    cases hc : d.any fun p => decide (p.1 = k) with
    | false => rfl
    | true =>
      obtain ⟨x, hx, hpx⟩ := List.any_eq_true.mp hc
      exact absurd hpx (by simpa using List.find?_eq_none.mp hf x hx)
  simp [dictInsert, hany]

lemma buildInputs_ok_spec (provided : Dict) :
    ∀ (defs : List WorkflowInput) (acc m : Dict),
      (defs.map (fun wi => wi.input_name)).Nodup →
      (∀ wi ∈ defs, dictLookup acc wi.input_name = none) →
      buildInputs provided defs acc = .ok m →
      (∀ wi ∈ defs, dictLookup m wi.input_name = providedOrDefault provided wi
          ∧ (providedOrDefault provided wi).isSome = true)
      ∧ (∀ n : String, (∀ wi ∈ defs, wi.input_name ≠ n) → dictLookup m n = dictLookup acc n) := by
  intro defs
  induction defs with
  | nil =>
    intro acc m _ _ h
    injection h with h
    subst h
    exact ⟨fun wi hwi => absurd hwi (List.not_mem_nil wi), fun n _ => rfl⟩
  | cons wi rest ih =>
    intro acc m hnd hacc h
    rw [List.map_cons, List.nodup_cons] at hnd
    obtain ⟨hni, hnd2⟩ := hnd
    have hne_rest : ∀ wj ∈ rest, wi.input_name ≠ wj.input_name := by
      intro wj hwj hc
      exact hni (hc ▸ List.mem_map_of_mem (fun x => x.input_name) hwj)
    have hfresh : dictLookup acc wi.input_name = none := hacc wi (List.mem_cons_self wi rest)
    -- helper finishing the proof once one value has been committed for `wi`
    have step : ∀ v0 : PyVal, providedOrDefault provided wi = some v0 →
        buildInputs provided rest (dictInsert acc wi.input_name v0) = .ok m →
        (∀ wj ∈ wi :: rest, dictLookup m wj.input_name = providedOrDefault provided wj
            ∧ (providedOrDefault provided wj).isSome = true)
        ∧ (∀ n : String, (∀ wj ∈ wi :: rest, wj.input_name ≠ n) →
            dictLookup m n = dictLookup acc n) := by
      intro v0 hpod hrec
      have hins : dictInsert acc wi.input_name v0 = acc ++ [(wi.input_name, v0)] :=
        dictInsert_fresh acc wi.input_name v0 hfresh
      have hacc2 : ∀ wj ∈ rest, dictLookup (dictInsert acc wi.input_name v0) wj.input_name
          = none := by
        intro wj hwj
        rw [hins, dictLookup_append, hacc wj (List.mem_cons_of_mem wi hwj),
          dictLookup_singleton, if_neg (hne_rest wj hwj)]
      obtain ⟨A, B⟩ := ih (dictInsert acc wi.input_name v0) m hnd2 hacc2 hrec
      constructor
      · intro wj hwj
        rcases List.mem_cons.mp hwj with hwj | hwj
        · subst hwj
          have hm : dictLookup m wj.input_name
              = dictLookup (dictInsert acc wj.input_name v0) wj.input_name :=
            B wj.input_name (fun wk hk => (hne_rest wk hk).symm)
          rw [hm, hins, dictLookup_append, hfresh, dictLookup_singleton, if_pos rfl, hpod]
          exact ⟨rfl, rfl⟩
        · exact A wj hwj
      · intro n hn
        have hm : dictLookup m n = dictLookup (dictInsert acc wi.input_name v0) n :=
          B n (fun wk hk => hn wk (List.mem_cons_of_mem wi hk))
        rw [hm, hins, dictLookup_append]
        cases hl : dictLookup acc n with
        | some v => rfl
        | none =>
          rw [dictLookup_singleton, if_neg (hn wi (List.mem_cons_self wi rest))]
    rw [buildInputs] at h
    cases hp : dictLookup provided wi.input_name with
    | some v =>
      simp only [hp] at h
      by_cases hv : valid_type wi.input_type v = true
      · rw [if_pos hv] at h
        exact step v (by rw [providedOrDefault, hp]) h
      · rw [if_neg hv] at h
        exact absurd h (by simp)
    | none =>
      simp only [hp] at h
      cases hd : wi.default_value with
      | some dv =>
        simp only [hd] at h
        exact step dv (by rw [providedOrDefault, hp, hd]) h
      | none =>
        simp only [hd] at h
        exact absurd h (by simp)

lemma buildInputs_error_spec (provided : Dict) :
    ∀ (defs : List WorkflowInput) (acc : Dict) (e : ValidateError),
      buildInputs provided defs acc = .error e →
      ∃ wi ∈ defs,
        (∃ v, e = .typeMismatch wi.input_name wi.input_type
            ∧ dictLookup provided wi.input_name = some v ∧ valid_type wi.input_type v = false)
        ∨ (e = .missingRequired wi.input_name wi.input_type
            ∧ wi.default_value = none ∧ dictLookup provided wi.input_name = none) := by
  intro defs
  induction defs with
  | nil =>
    intro acc e h
    simp [buildInputs] at h
  | cons wi rest ih =>
    intro acc e h
    rw [buildInputs] at h
    cases hp : dictLookup provided wi.input_name with
    | some v =>
      simp only [hp] at h
      by_cases hv : valid_type wi.input_type v = true
      · rw [if_pos hv] at h
        obtain ⟨wj, hwj, hc⟩ := ih _ e h
        exact ⟨wj, List.mem_cons_of_mem wi hwj, hc⟩
      · rw [if_neg hv] at h
        injection h with h
        exact ⟨wi, List.mem_cons_self wi rest,
          Or.inl ⟨v, h.symm, hp, Bool.eq_false_iff.mpr hv⟩⟩
    | none =>
      simp only [hp] at h
      cases hd : wi.default_value with
      | some dv =>
        simp only [hd] at h
        obtain ⟨wj, hwj, hc⟩ := ih _ e h
        exact ⟨wj, List.mem_cons_of_mem wi hwj, hc⟩
      | none =>
        simp only [hd] at h
        injection h with h
        exact ⟨wi, List.mem_cons_self wi rest, Or.inr ⟨h.symm, hd, hp⟩⟩

/-- What the claim demands of a successful result: every defined input
name maps to the provided value when present and the declared default
otherwise (and some value is always present), and no other key occurs. -/
def okSpec (wf : Workflow) (provided m : Dict) : Prop :=
  (∀ wi ∈ wf.workflow_inputs,
      dictLookup m wi.input_name = providedOrDefault provided wi
      ∧ (providedOrDefault provided wi).isSome = true)
  ∧ ∀ n : String, n ∉ wf.workflow_inputs.map (fun wi => wi.input_name) → dictLookup m n = none

/-- What the claim demands of each raised exception: the condition that
justifies it actually holds at the input.  `multipleInputsNoneProvided`,
`noInputsButProvided`, `unexpectedInput` and `missingRequired` are
`ValueError` sites and `typeMismatch` is the `TypeError` site (see
`ValidateError.isTypeError`); under `noInputsButProvided` every provided
name is an unexpected input name. -/
def errSpec (wf : Workflow) (provided : Dict) : ValidateError → Prop
  | .multipleInputsNoneProvided k =>
      k = wf.workflow_inputs.length ∧ 1 < k ∧ provided = []
  | .noInputsButProvided k =>
      wf.workflow_inputs = [] ∧ k = provided.length ∧ provided ≠ []
  | .unexpectedInput n =>
      (∃ v, (n, v) ∈ provided) ∧ n ∉ wf.workflow_inputs.map (fun wi => wi.input_name)
  | .typeMismatch n t =>
      ∃ wi ∈ wf.workflow_inputs, wi.input_name = n ∧ wi.input_type = t
        ∧ ∃ v, dictLookup provided n = some v ∧ valid_type t v = false
  | .missingRequired n t =>
      ∃ wi ∈ wf.workflow_inputs, wi.input_name = n ∧ wi.input_type = t
        ∧ wi.default_value = none ∧ dictLookup provided n = none

/-- Claim C10: `validate_user_inputs_for_workflow` either raises one of
the enumerated exceptions with its triggering condition actually holding
(ValueError for an unexpected input name, a required input missing with
no default, or empty provided inputs against multiple defined inputs;
TypeError for a type mismatch), or returns a mapping whose keys are
exactly the defined input names, each mapped to the provided value when
present and the declared default otherwise.  Defined input names are
assumed distinct. -/
theorem c10 (wf : Workflow) (provided : Dict)
    (hnd : (wf.workflow_inputs.map (fun wi => wi.input_name)).Nodup) :
    match validate_user_inputs_for_workflow wf provided with
    | .ok m => okSpec wf provided m
    | .error e => errSpec wf provided e := by
  unfold validate_user_inputs_for_workflow
  by_cases h1 : wf.workflow_inputs.length > 1 ∧ provided.length = 0
  · rw [if_pos h1]
    exact ⟨rfl, h1.1, List.length_eq_zero.mp h1.2⟩
  · rw [if_neg h1]
    by_cases h2 : wf.workflow_inputs.length = 0 ∧ 0 < provided.length
    · rw [if_pos h2]
      refine ⟨List.length_eq_zero.mp h2.1, rfl, ?_⟩
      intro hc
      rw [hc] at h2
      simp at h2
    · rw [if_neg h2]
      cases hf : provided.find?
          (fun p => ¬ (wf.workflow_inputs.map (fun wi => wi.input_name)).contains p.1) with
      | some p =>
        have hmem := List.mem_of_find?_eq_some hf
        have hpred := List.find?_some hf
        simp only [decide_eq_true_eq] at hpred
        refine ⟨⟨p.2, ?_⟩, ?_⟩
        · simpa using hmem
        · intro hc
          exact hpred (by simpa using hc)
      | none =>
        cases hb : buildInputs provided wf.workflow_inputs [] with
        | ok m =>
          obtain ⟨A, B⟩ := buildInputs_ok_spec provided wf.workflow_inputs [] m hnd
            (fun _ _ => rfl) hb
          refine ⟨A, ?_⟩
          intro n hn
          refine (B n ?_).trans rfl
          intro wi hwi hne
          exact hn (hne ▸ List.mem_map_of_mem (fun x => x.input_name) hwi)
        | error e =>
          obtain ⟨wi, hwi, hca⟩ := buildInputs_error_spec provided wf.workflow_inputs [] e hb
          rcases hca with ⟨v, he, hl, hv⟩ | ⟨he, hd, hl⟩
          · subst he
            exact ⟨wi, hwi, rfl, rfl, v, hl, hv⟩
          · subst he
            exact ⟨wi, hwi, rfl, rfl, hd, hl⟩

/-- Claim C10, witness at a concrete input: one defined string input,
provided with a string value. -/
theorem c10_witness :
    ((Workflow.mk [⟨"city", .string, none⟩]).workflow_inputs.map
        (fun wi => wi.input_name)).Nodup
    ∧ (match validate_user_inputs_for_workflow (Workflow.mk [⟨"city", .string, none⟩])
          [("city", .str "paris")] with
      | .ok m => okSpec (Workflow.mk [⟨"city", .string, none⟩]) [("city", .str "paris")] m
      | .error e => errSpec (Workflow.mk [⟨"city", .string, none⟩]) [("city", .str "paris")] e) :=
  ⟨by simp, c10 (Workflow.mk [⟨"city", .string, none⟩]) [("city", .str "paris")] (by simp)⟩
